import Mathlib

/-!
Verification of the VoxAI Studio TTS server and generation pipeline.

The development shallowly embeds the relevant parts of `src/server.ts`:
the in-memory user/credit store and its HTTP handlers (auth callback,
GET /api/user, POST /api/user/deduct), the WAV container encoder
`createWavUrl`, and the client-side `generateSpeech` pipeline with its
cancellation controller (`handleCancel`).

Modelling conventions: JavaScript numbers appearing as credit balances and
deduction amounts are modelled as integers (`Int`), with the `Infinity`
sentinel as a separate constructor; JS strings driving the pipeline are
modelled as `List Char` (so that `trim` and `length` are the structural
operations the code uses); the external generative-model calls are oracles
whose responses are inputs of the embedded pipeline function.
-/

/-- Credit balance of an account: the JavaScript `Infinity` sentinel used for
privileged accounts, or a finite numeric balance. -/
inductive Credits where
  | infinity : Credits
  | fin (n : Int) : Credits
  deriving DecidableEq, Repr

/-- A row of the in-memory `usersDb`: `{ email, credits, isPremium }`. -/
structure User where
  email : String
  credits : Credits
  isPremium : Bool
  deriving DecidableEq, Repr

/-- The hardcoded privileged allow-list `SPECIAL_EMAILS`. -/
def SPECIAL_EMAILS : List String :=
  ["amliyarsachin248@gmail.com", "amaliyarmanu5@gmail.com",
   "sachinamliyar15@gmail.com", "robotlinkan@gmail.com"]

/-- Lazy account initialization used whenever an unseen email is first
recorded: special emails get `Infinity` credits and premium, others 20000. -/
def initUser (email : String) : User :=
  let isSpecial := SPECIAL_EMAILS.contains email
  { email := email
  , credits := if isSpecial then .infinity else .fin 20000
  , isPremium := isSpecial }

/-- The in-memory `usersDb` keyed by email. -/
abbrev UsersDb := List (String × User)

def dbLookup : UsersDb → String → Option User
  | [], _ => none
  | (k, u) :: rest, e => if k = e then some u else dbLookup rest e

def dbSet : UsersDb → String → User → UsersDb
  | [], e, u => [(e, u)]
  | (k, v) :: rest, e, u => if k = e then (e, u) :: rest else (k, v) :: dbSet rest e u

/-- A session cookie value as seen by `jwt.verify`: either it verifies and
carries an email payload, or verification throws (bad signature / expiry). -/
inductive Token where
  | valid (email : String) : Token
  | invalid : Token
  deriving DecidableEq, Repr

/-- HTTP-level result of POST /api/user/deduct. -/
inductive DeductHttp where
  | unauthorized
  | invalidToken
  | userNotFound
  | insufficient
  | ok (u : User)
  deriving DecidableEq, Repr

/-- Credential resolution shared shape of the deduct handler: the
`mock_session` cookie takes priority when truthy (non-empty), otherwise the
signed `session` cookie is verified. -/
def resolveEmail (mockSession : Option String) (session : Option Token) :
    Except DeductHttp String :=
  let mockEmail := mockSession.getD ""
  if mockEmail ≠ "" then .ok mockEmail
  else
    match session with
    | none => .error .unauthorized
    | some .invalid => .error .invalidToken
    | some (.valid e) => .ok e

/-- Outcome of the check-and-deduct core on a single balance. -/
inductive DeductOutcome where
  | insufficientCredits
  | ok (c : Credits)
  deriving DecidableEq, Repr

/-- The check-and-deduct operation on a balance, as performed by the deduct
handler: `Infinity` is a no-op success; otherwise fail if `credits < amount`,
else subtract. -/
def checkAndDeduct (c : Credits) (amount : Int) : DeductOutcome :=
  match c with
  | .infinity => .ok .infinity
  | .fin b => if b < amount then .insufficientCredits else .ok (.fin (b - amount))

/-- The POST /api/user/deduct handler: resolve the email, look up the user
(404 when absent), then check-and-deduct; only the finite-balance success
branch mutates the store. -/
def deductEndpoint (db : UsersDb) (mockSession : Option String) (session : Option Token)
    (amount : Int) : DeductHttp × UsersDb :=
  match resolveEmail mockSession session with
  | .error e => (e, db)
  | .ok email =>
    match dbLookup db email with
    | none => (.userNotFound, db)
    | some user =>
      match user.credits with
      | .infinity => (.ok user, db)
      | .fin b =>
        if b < amount then (.insufficient, db)
        else
          let user' := { user with credits := .fin (b - amount) }
          (.ok user', dbSet db email user')

/-- HTTP-level result of GET /api/user. -/
inductive UserHttp where
  | unauthorized
  | invalidToken
  | userNotFound
  | ok (u : User)
  deriving DecidableEq, Repr

/-- The GET /api/user handler: a truthy `mock_session` cookie creates the
account on first sight and returns it; the signed-token path only looks up
the store and returns 404 when the email is unseen. -/
def getUserEndpoint (db : UsersDb) (mockSession : Option String) (session : Option Token) :
    UserHttp × UsersDb :=
  let mockEmail := mockSession.getD ""
  if mockEmail ≠ "" then
    match dbLookup db mockEmail with
    | some u => (.ok u, db)
    | none =>
      let u := initUser mockEmail
      (.ok u, dbSet db mockEmail u)
  else
    match session with
    | none => (.unauthorized, db)
    | some .invalid => (.invalidToken, db)
    | some (.valid email) =>
      match dbLookup db email with
      | none => (.userNotFound, db)
      | some u => (.ok u, db)

/-- Account initialization performed by GET /auth/callback after decoding the
email from the provider ID token: create the ledger entry on first sight,
then issue a signed 7-day session token for the email. -/
def authCallbackInit (db : UsersDb) (email : String) : UsersDb × Token :=
  let db' :=
    match dbLookup db email with
    | some _ => db
    | none => dbSet db email (initUser email)
  (db', .valid email)

/-- State of the store after a sequence of deduct requests with the given
credentials. -/
def runDeducts (db : UsersDb) (mockSession : Option String) (session : Option Token) :
    List Int → UsersDb
  | [] => db
  | a :: rest => runDeducts (deductEndpoint db mockSession session a).2 mockSession session rest

theorem dbLookup_dbSet_self (db : UsersDb) (k : String) (u : User) :
    dbLookup (dbSet db k u) k = some u := by
  induction db with
  | nil => simp [dbSet, dbLookup]
  | cons hd tl ih =>
    obtain ⟨k', v⟩ := hd
    by_cases h : k' = k
    · simp [dbSet, dbLookup, h]
    · simp [dbSet, dbLookup, h, ih]

theorem deductEndpoint_eq_fin (db : UsersDb) (email : String) (he : email ≠ "")
    (u : User) (b : Int) (hu : dbLookup db email = some u) (hb : u.credits = .fin b)
    (a : Int) :
    deductEndpoint db (some email) none a
      = if b < a then (.insufficient, db)
        else (.ok { u with credits := .fin (b - a) },
              dbSet db email { u with credits := .fin (b - a) }) := by
  simp [deductEndpoint, resolveEmail, he, hu, hb]

theorem deductEndpoint_eq_inf (db : UsersDb) (email : String) (he : email ≠ "")
    (u : User) (hu : dbLookup db email = some u) (hb : u.credits = .infinity)
    (a : Int) :
    deductEndpoint db (some email) none a = (.ok u, db) := by
  simp [deductEndpoint, resolveEmail, he, hu, hb]

theorem runDeducts_invariant (email : String) (he : email ≠ "") (amts : List Int) :
    ∀ (db : UsersDb) (u : User) (b : Int), dbLookup db email = some u →
      u.credits = .fin b → 0 ≤ b →
      ∃ u' b', dbLookup (runDeducts db (some email) none amts) email = some u'
        ∧ u'.credits = .fin b' ∧ 0 ≤ b' := by
  induction amts with
  | nil =>
    intro db u b hu hb h0
    exact ⟨u, b, by simpa [runDeducts] using hu, hb, h0⟩
  | cons a rest ih =>
    intro db u b hu hb h0
    have hstep := deductEndpoint_eq_fin db email he u b hu hb a
    by_cases hlt : b < a
    · have hdb : (deductEndpoint db (some email) none a).2 = db := by
        rw [hstep]; simp [hlt]
      rw [runDeducts, hdb]
      exact ih db u b hu hb h0
    · have hdb : (deductEndpoint db (some email) none a).2
          = dbSet db email { u with credits := .fin (b - a) } := by
        rw [hstep]; simp [hlt]
      rw [runDeducts, hdb]
      exact ih _ _ (b - a) (dbLookup_dbSet_self db email _) rfl (by omega)

/-- C1: for an account with a non-negative finite balance, no sequence of
deduction requests through POST /api/user/deduct leaves the balance below
zero; each single request either fails with the insufficient-credits error
leaving the store unchanged, or subtracts an amount no greater than the
current balance. -/
theorem deduct_balance_never_negative (db : UsersDb) (email : String) (he : email ≠ "")
    (u : User) (b : Int) (hu : dbLookup db email = some u) (hb : u.credits = .fin b)
    (h0 : 0 ≤ b) (amts : List Int) :
    (∃ u' b', dbLookup (runDeducts db (some email) none amts) email = some u'
      ∧ u'.credits = .fin b' ∧ 0 ≤ b')
    ∧ (∀ a : Int,
        deductEndpoint db (some email) none a = (.insufficient, db)
        ∨ (a ≤ b
           ∧ deductEndpoint db (some email) none a
             = (.ok { u with credits := .fin (b - a) },
                dbSet db email { u with credits := .fin (b - a) }))) := by
  refine ⟨runDeducts_invariant email he amts db u b hu hb h0, ?_⟩
  intro a
  have hstep := deductEndpoint_eq_fin db email he u b hu hb a
  by_cases hlt : b < a
  · left; rw [hstep]; simp [hlt]
  · right; exact ⟨by omega, by rw [hstep]; simp [hlt]⟩

def dbA : UsersDb := [("a@x.com", { email := "a@x.com", credits := .fin 100, isPremium := false })]

def userA : User := { email := "a@x.com", credits := .fin 100, isPremium := false }

theorem deduct_balance_never_negative_witness :
    ((0 : Int) ≤ 100)
    ∧ ((∃ u' b', dbLookup (runDeducts dbA (some "a@x.com") none [60, 60, 30]) "a@x.com" = some u'
        ∧ u'.credits = .fin b' ∧ 0 ≤ b')
      ∧ (∀ a : Int,
          deductEndpoint dbA (some "a@x.com") none a = (.insufficient, dbA)
          ∨ (a ≤ 100
             ∧ deductEndpoint dbA (some "a@x.com") none a
               = (.ok { userA with credits := .fin (100 - a) },
                  dbSet dbA "a@x.com" { userA with credits := .fin (100 - a) })))) :=
  ⟨by decide,
   deduct_balance_never_negative dbA "a@x.com" (by decide) userA 100 rfl rfl (by decide) [60, 60, 30]⟩

/-- C2: the deduct endpoint for an identity with an existing account and any
amount: an unlimited balance is a no-op success; a finite balance smaller
than the amount fails with the insufficient-credits error (HTTP 400) leaving
the store unchanged; otherwise the amount is subtracted and the updated
account is returned. -/
theorem deduct_endpoint_spec (db : UsersDb) (email : String) (he : email ≠ "")
    (u : User) (hu : dbLookup db email = some u) (amount : Int) :
    (u.credits = .infinity →
      deductEndpoint db (some email) none amount = (.ok u, db))
    ∧ (∀ b : Int, u.credits = .fin b → b < amount →
      deductEndpoint db (some email) none amount = (.insufficient, db))
    ∧ (∀ b : Int, u.credits = .fin b → amount ≤ b →
      deductEndpoint db (some email) none amount
        = (.ok { u with credits := .fin (b - amount) },
           dbSet db email { u with credits := .fin (b - amount) })) := by
  refine ⟨?_, ?_, ?_⟩
  · intro hc
    exact deductEndpoint_eq_inf db email he u hu hc amount
  · intro b hc hlt
    rw [deductEndpoint_eq_fin db email he u b hu hc amount]
    simp [hlt]
  · intro b hc hle
    rw [deductEndpoint_eq_fin db email he u b hu hc amount]
    simp [not_lt.mpr hle]

theorem deduct_endpoint_spec_witness :
    deductEndpoint dbA (some "a@x.com") none 30
      = (.ok { userA with credits := .fin (100 - 30) },
         dbSet dbA "a@x.com" { userA with credits := .fin (100 - 30) }) :=
  (deduct_endpoint_spec dbA "a@x.com" (by decide) userA rfl 30).2.2 100 rfl (by decide)

/-- C10: the deduct endpoint does not validate that the amount is positive:
for a non-unlimited account with non-negative balance and a negative amount,
the insufficient-credits check passes, the negative amount is subtracted
(strictly increasing the balance), and the updated account is returned with
success. -/
theorem deduct_negative_amount_increases_balance (db : UsersDb) (email : String)
    (he : email ≠ "") (u : User) (b : Int) (hu : dbLookup db email = some u)
    (hb : u.credits = .fin b) (h0 : 0 ≤ b) (a : Int) (ha : a < 0) :
    deductEndpoint db (some email) none a
      = (.ok { u with credits := .fin (b - a) },
         dbSet db email { u with credits := .fin (b - a) })
    ∧ b < b - a := by
  have hstep := deductEndpoint_eq_fin db email he u b hu hb a
  have hlt : ¬ b < a := by omega
  rw [hstep]
  exact ⟨by simp [hlt], by omega⟩

theorem deduct_negative_amount_increases_balance_witness :
    (deductEndpoint dbA (some "a@x.com") none (-50)
      = (.ok { userA with credits := .fin (100 - (-50)) },
         dbSet dbA "a@x.com" { userA with credits := .fin (100 - (-50)) }))
    ∧ (100 : Int) < 100 - (-50) :=
  deduct_negative_amount_increases_balance dbA "a@x.com" (by decide) userA 100 rfl rfl
    (by decide) (-50) (by decide)

/-- C6 counterexample: resolving a valid signed session token for an identity
never seen before does not create a ledger entry — GET /api/user answers
with the account-not-found failure (404) and the store still has no entry. -/
theorem session_token_unseen_identity_not_created :
    (getUserEndpoint [] none (some (.valid "x@y.com"))).1 = .userNotFound
    ∧ dbLookup (getUserEndpoint [] none (some (.valid "x@y.com"))).2 "x@y.com" = none := by
  exact ⟨rfl, rfl⟩

/-- C6 amended: the preview-mode marker creates a ledger entry on first sight
(GET /api/user with a truthy mock session), and so does the auth callback at
token issuance; but resolving a valid signed session token for an unseen
identity does not create an account — it fails with account-not-found. -/
theorem account_created_on_first_sight (db : UsersDb) (email : String) (he : email ≠ "") :
    (∃ u, (getUserEndpoint db (some email) none).1 = .ok u
       ∧ dbLookup (getUserEndpoint db (some email) none).2 email = some u)
    ∧ (∃ u, dbLookup (authCallbackInit db email).1 email = some u)
    ∧ (dbLookup db email = none →
       getUserEndpoint db none (some (.valid email)) = (.userNotFound, db)) := by
  refine ⟨?_, ?_, ?_⟩
  · cases hdb : dbLookup db email with
    | some u =>
      exact ⟨u, by simp [getUserEndpoint, he, hdb], by simp [getUserEndpoint, he, hdb]⟩
    | none =>
      refine ⟨initUser email, by simp [getUserEndpoint, he, hdb], ?_⟩
      simp [getUserEndpoint, he, hdb, dbLookup_dbSet_self]
  · cases hdb : dbLookup db email with
    | some u => exact ⟨u, by simp [authCallbackInit, hdb]⟩
    | none => exact ⟨initUser email, by simp [authCallbackInit, hdb, dbLookup_dbSet_self]⟩
  · intro hdb
    simp [getUserEndpoint, hdb]

theorem account_created_on_first_sight_witness :
    ("b@x.com" ≠ "")
    ∧ ((∃ u, (getUserEndpoint [] (some "b@x.com") none).1 = .ok u
        ∧ dbLookup (getUserEndpoint [] (some "b@x.com") none).2 "b@x.com" = some u)
      ∧ (∃ u, dbLookup (authCallbackInit [] "b@x.com").1 "b@x.com" = some u)
      ∧ (dbLookup [] "b@x.com" = none →
         getUserEndpoint [] none (some (.valid "b@x.com")) = (.userNotFound, []))) :=
  ⟨by decide, account_created_on_first_sight [] "b@x.com" (by decide)⟩

/-- Two bytes stored by `DataView.setUint16(_, v, true)` (little endian). -/
def u16le (v : Nat) : List Nat := [v % 256, v / 256 % 256]

/-- Four bytes stored by `DataView.setUint32(_, v, true)` (little endian). -/
def u32le (v : Nat) : List Nat :=
  [v % 256, v / 256 % 256, v / 65536 % 256, v / 16777216 % 256]

/-- The 44-byte header written by `createWavUrl` for a payload of `n` PCM
bytes at sample rate `r`: RIFF chunk (size 36 + n), WAVE, fmt chunk of size
16 with PCM tag 1, 1 channel, sample rate, byte rate r * 2, block align 2,
16 bits per sample, then the data chunk header with declared size n. The
ASCII tags RIFF, WAVE, fmt and data are spelled as their byte values. -/
def wavHeader (n r : Nat) : List Nat :=
  [82, 73, 70, 70] ++ u32le (36 + n)
    ++ [87, 65, 86, 69]
    ++ [102, 109, 116, 32] ++ u32le 16
    ++ u16le 1 ++ u16le 1 ++ u32le r ++ u32le (r * 2) ++ u16le 2 ++ u16le 16
    ++ [100, 97, 116, 97] ++ u32le n

/-- The buffer built by `createWavUrl` from the decoded PCM bytes: the 44-byte
header followed by the payload. The base64 decoding (`atob`) and the final
object-URL wrapping are outside the modelled computation. -/
def createWav (bytes : List Nat) (r : Nat) : List Nat :=
  wavHeader bytes.length r ++ bytes

/-- Byte of a buffer at an offset (0 past the end, as a read convention). -/
def byteAt : List Nat → Nat → Nat
  | [], _ => 0
  | b :: _, 0 => b
  | _ :: rest, n + 1 => byteAt rest n

/-- Little-endian 16-bit read at an offset. -/
def readU16le (l : List Nat) (off : Nat) : Nat :=
  byteAt l off + 256 * byteAt l (off + 1)

/-- Little-endian 32-bit read at an offset. -/
def readU32le (l : List Nat) (off : Nat) : Nat :=
  byteAt l off + 256 * byteAt l (off + 1)
    + 65536 * byteAt l (off + 2) + 16777216 * byteAt l (off + 3)

/-- C9: for a payload of N PCM bytes and a sample rate R (in range for the
32-bit header fields), the container is exactly 44 + N bytes, declares the
payload length N at offset 40, channel count 1 at offset 22, bit depth 16 at
offset 34, and byte rate R * 2 at offset 28; the function is total, and the
empty payload yields the same well-formed shape (see the witness). -/
theorem byteAt_createWav_28 (bytes : List Nat) (r : Nat) :
    byteAt (createWav bytes r) 28 = r * 2 % 256 := rfl

theorem byteAt_createWav_29 (bytes : List Nat) (r : Nat) :
    byteAt (createWav bytes r) 29 = r * 2 / 256 % 256 := rfl

theorem byteAt_createWav_30 (bytes : List Nat) (r : Nat) :
    byteAt (createWav bytes r) 30 = r * 2 / 65536 % 256 := rfl

theorem byteAt_createWav_31 (bytes : List Nat) (r : Nat) :
    byteAt (createWav bytes r) 31 = r * 2 / 16777216 % 256 := rfl

theorem byteAt_createWav_40 (bytes : List Nat) (r : Nat) :
    byteAt (createWav bytes r) 40 = bytes.length % 256 := rfl

theorem byteAt_createWav_41 (bytes : List Nat) (r : Nat) :
    byteAt (createWav bytes r) 41 = bytes.length / 256 % 256 := rfl

theorem byteAt_createWav_42 (bytes : List Nat) (r : Nat) :
    byteAt (createWav bytes r) 42 = bytes.length / 65536 % 256 := rfl

theorem byteAt_createWav_43 (bytes : List Nat) (r : Nat) :
    byteAt (createWav bytes r) 43 = bytes.length / 16777216 % 256 := rfl

theorem byteAt_createWav_22 (bytes : List Nat) (r : Nat) :
    byteAt (createWav bytes r) 22 = 1 := rfl

theorem byteAt_createWav_23 (bytes : List Nat) (r : Nat) :
    byteAt (createWav bytes r) 23 = 0 := rfl

theorem byteAt_createWav_34 (bytes : List Nat) (r : Nat) :
    byteAt (createWav bytes r) 34 = 16 := rfl

theorem byteAt_createWav_35 (bytes : List Nat) (r : Nat) :
    byteAt (createWav bytes r) 35 = 0 := rfl

/-- C9: for a payload of N PCM bytes and a sample rate R (in range for the
32-bit header fields), the container is exactly 44 + N bytes, declares the
payload length N at offset 40, channel count 1 at offset 22, bit depth 16 at
offset 34, and byte rate R * 2 at offset 28; the function is total, and the
empty payload yields the same well-formed shape (see the witness). -/
theorem createWav_spec (bytes : List Nat) (r : Nat)
    (hn : bytes.length < 4294967296) (hr : r * 2 < 4294967296) :
    (createWav bytes r).length = 44 + bytes.length
    ∧ readU32le (createWav bytes r) 40 = bytes.length
    ∧ readU16le (createWav bytes r) 22 = 1
    ∧ readU16le (createWav bytes r) 34 = 16
    ∧ readU32le (createWav bytes r) 28 = r * 2 := by
  have hlen : (createWav bytes r).length = 44 + bytes.length := by
    have hh : (wavHeader bytes.length r).length = 44 := rfl
    rw [createWav, List.length_append, hh]
  have h40 : readU32le (createWav bytes r) 40
      = bytes.length % 256 + 256 * (bytes.length / 256 % 256)
        + 65536 * (bytes.length / 65536 % 256)
        + 16777216 * (bytes.length / 16777216 % 256) := by
    unfold readU32le
    norm_num [byteAt_createWav_40, byteAt_createWav_41, byteAt_createWav_42, byteAt_createWav_43]
  have h28 : readU32le (createWav bytes r) 28
      = r * 2 % 256 + 256 * (r * 2 / 256 % 256)
        + 65536 * (r * 2 / 65536 % 256)
        + 16777216 * (r * 2 / 16777216 % 256) := by
    unfold readU32le
    norm_num [byteAt_createWav_28, byteAt_createWav_29, byteAt_createWav_30, byteAt_createWav_31]
  have h22 : readU16le (createWav bytes r) 22 = 1 := by
    unfold readU16le
    norm_num [byteAt_createWav_22, byteAt_createWav_23]
  have h34 : readU16le (createWav bytes r) 34 = 16 := by
    unfold readU16le
    norm_num [byteAt_createWav_34, byteAt_createWav_35]
  exact ⟨hlen, by rw [h40]; omega, h22, h34, by rw [h28]; omega⟩

theorem createWav_spec_witness :
    (([] : List Nat).length < 4294967296 ∧ 24000 * 2 < 4294967296)
    ∧ ((createWav [] 24000).length = 44 + ([] : List Nat).length
      ∧ readU32le (createWav [] 24000) 40 = ([] : List Nat).length
      ∧ readU16le (createWav [] 24000) 22 = 1
      ∧ readU16le (createWav [] 24000) 34 = 16
      ∧ readU32le (createWav [] 24000) 28 = 24000 * 2) :=
  ⟨⟨by decide, by decide⟩, createWav_spec [] 24000 (by decide) (by decide)⟩

/-- Generation mode selected in the UI. -/
inductive Mode where
  | tts
  | voiceChanger
  | dubbing
  deriving DecidableEq, Repr

/-- Whitespace test of JS `String.prototype.trim`, modelled for the ASCII
whitespace characters that can occur in the inputs at issue. -/
def isJsWs (c : Char) : Bool :=
  c = ' ' || c = '\t' || c = '\n' || c = '\r'

/-- JS `String.prototype.trim` on a string modelled as a list of characters. -/
def jsTrim (s : List Char) : List Char :=
  ((s.dropWhile isJsWs).reverse.dropWhile isJsWs).reverse

/-- The character ceiling `MAX_CHARS` of `generateSpeech`. -/
def MAX_CHARS : Nat := 20000

/-- A JS error object as inspected by the catch block of `generateSpeech`:
its `name` and `message` fields (a missing message is modelled as empty). -/
structure JsError where
  name : List Char
  message : List Char
  deriving DecidableEq, Repr

/-- Whether the second list starts with the first (helper for `jsIncludes`). -/
def startsWithChars : List Char → List Char → Bool
  | [], _ => true
  | _ :: _, [] => false
  | c :: cs, d :: ds => c = d && startsWithChars cs ds

/-- JS `String.prototype.includes(needle)` on the haystack: true exactly when
the needle occurs contiguously; case-sensitive, empty needle always found. -/
def jsIncludes (needle : List Char) : List Char → Bool
  | [] => startsWithChars needle []
  | d :: ds => startsWithChars needle (d :: ds) || jsIncludes needle ds

/-- Oracle response of the synthesis call (`generateContent` with the TTS
model): it rejects with some error object, or resolves with optional inline
audio bytes (none models a response without inlineData). -/
inductive SynthResult where
  | throws (e : JsError)
  | returns (audio : Option (List Nat))
  deriving DecidableEq, Repr

/-- When, relative to the two awaited external calls, `handleCancel` is
invoked during the run (if at all). -/
inductive CancelPoint where
  | noCancel
  | duringPreprocessing
  | duringSynthesis
  deriving DecidableEq, Repr

/-- Observable side effects of a run, in order: external calls made, the
deduct request issued to POST /api/user/deduct, and the history append. -/
inductive Ev where
  | transcribeCall
  | synthesizeCall
  | deductCall (amount : Int)
  | historyAppend
  deriving DecidableEq, Repr

/-- Terminal outcome of a `generateSpeech` run, one constructor per distinct
user-visible result: the `errProcessAudio` flag records whether the caught
error was the internal empty-transcription throw (Could not extract speech
from audio) as opposed to a rejected transcription/translation call;
`cancelled` is the silent return branch of the outer catch (console.log only,
no error surfaced, taken when the caught error passes the abort test);
`errQuota` is the fixed quota message; `errGeneric` carries the message
passed to setError for every other caught error. -/
inductive Outcome where
  | needLogin
  | errUploadMissing
  | errProcessAudio (emptySpeech : Bool)
  | errTextEmpty
  | errTooLong
  | errInsufficient
  | cancelled
  | errQuota
  | errGeneric (message : List Char)
  | completed (audio : List Nat)
  deriving DecidableEq, Repr

/-- Classification performed by the outer catch of `generateSpeech`: the
abort test (err.name strictly equal to AbortError, or err.message containing
the lowercase substring abort) selects the silent-return branch; otherwise
the quota test (message containing 429, RESOURCE_EXHAUSTED or quota) selects
the fixed quota message; otherwise setError(err.message) with the
connection-failed fallback when the message is empty. -/
def catchOutcome (e : JsError) : Outcome :=
  if e.name = "AbortError".toList || jsIncludes "abort".toList e.message then
    .cancelled
  else if jsIncludes "429".toList e.message
      || jsIncludes "RESOURCE_EXHAUSTED".toList e.message
      || jsIncludes "quota".toList e.message then
    .errQuota
  else
    .errGeneric (if e.message = [] then
      "Connection failed. Please check your internet or API key.".toList
    else e.message)

/-- The rejection produced by the abort race when the abort signal wins:
the code rejects with new Error with message AbortError, whose name field is
Error (not AbortError). -/
def abortRaceError : JsError :=
  { name := "Error".toList, message := "AbortError".toList }

/-- The error thrown when the synthesis response carries no audio bytes. -/
def emptyResponseError : JsError :=
  { name := "Error".toList
  , message := ("The AI model returned an empty response. "
      ++ "Please try again with shorter text or a different voice.").toList }

/-- handleCancel: if an abort-controller ref is set, abort it and clear the
ref; otherwise do nothing. Returns the new ref value and whether an abort
was actually performed. -/
def handleCancel (ref : Option Unit) : Option Unit × Bool :=
  match ref with
  | none => (none, false)
  | some _ => (none, true)

/-- The abort-controller ref visible to `handleCancel` at each cancel point:
the controller is created only immediately before the synthesis call (after
preprocessing and all precondition checks), so while the transcription or
translation await is outstanding the ref is still null. -/
def controllerRefAt : CancelPoint → Option Unit
  | .noCancel => none
  | .duringPreprocessing => none
  | .duringSynthesis => some ()

/-- Whether a cancellation issued at the given point makes the abort signal
win the race against the synthesis promise. -/
def abortFires (cp : CancelPoint) : Bool :=
  match cp with
  | .noCancel => false
  | _ => (handleCancel (controllerRefAt cp)).2

/-- Inputs of one `generateSpeech` run: the client-side user snapshot (none
models a logged-out client, which only triggers the login flow), the mode,
the text, the uploaded audio (presence is what the code checks), and the
oracle responses of the external calls consumed when those calls happen.
`transcribeResult` is the transcription/translation call: none = the call
rejected, some s = it resolved with text s (a missing text field collapses
to the empty string, as in `textResponse.text || ''`). -/
structure RunInput where
  user : Option User
  mode : Mode
  text : List Char
  uploadedAudio : Option (List Nat)
  transcribeResult : Option (List Char)
  synthResult : SynthResult
  cancelPoint : CancelPoint
  deriving DecidableEq, Repr

/-- Result of one run: the outcome, the emitted events in order, the
server-side credit balance for the caller's identity after the run, and
whether a HistoryItem was appended. -/
structure RunOutput where
  outcome : Outcome
  events : List Ev
  serverCredits : Credits
  historyAppended : Bool
  deriving DecidableEq, Repr

/-- Preprocessing phase of `generateSpeech` (the mode !== tts branch):
resolve the text to synthesize or fail, together with the external-call
events emitted so far. In tts mode the caller-supplied text is used verbatim
and no call is made. -/
def preprocess (inp : RunInput) : Except (Outcome × List Ev) (List Char × List Ev) :=
  match inp.mode with
  | .tts => .ok (inp.text, [])
  | _ =>
    match inp.uploadedAudio with
    | none => .error (.errUploadMissing, [])
    | some _ =>
      match inp.transcribeResult with
      | none => .error (.errProcessAudio false, [.transcribeCall])
      | some s =>
        if jsTrim s = [] then .error (.errProcessAudio true, [.transcribeCall])
        else .ok (s, [.transcribeCall])

/-- The text that reaches the synthesis phase, when preprocessing succeeds. -/
def resolvedText (inp : RunInput) : Option (List Char) :=
  match preprocess inp with
  | .ok (t, _) => some t
  | .error _ => none

/-- Synthesis phase of `generateSpeech` and its aftermath: the synthesis call
raced against the abort signal — when the abort wins, the race rejects with
`abortRaceError` and the outcome is whatever the outer catch makes of that
error (NOT hardwired to the silent cancel branch); when the call itself
rejects, the thrown error goes through the same catch; a response without
audio throws `emptyResponseError` into the same catch; on audio present, the
fire-and-forget deduct request for the resolved-text length when the client
balance is not unlimited, the audio URL, and the history append. -/
def synthesize (user : User) (txt : List Char) (evs : List Ev) (inp : RunInput)
    (server : Credits) : RunOutput :=
  let evs' := evs ++ [.synthesizeCall]
  if abortFires inp.cancelPoint then
    ⟨catchOutcome abortRaceError, evs', server, false⟩
  else
    match inp.synthResult with
    | .throws e => ⟨catchOutcome e, evs', server, false⟩
    | .returns none => ⟨catchOutcome emptyResponseError, evs', server, false⟩
    | .returns (some audio) =>
      match user.credits with
      | .infinity => ⟨.completed audio, evs' ++ [.historyAppend], server, true⟩
      | .fin _ =>
        let amt : Int := txt.length
        let server' :=
          match checkAndDeduct server amt with
          | .insufficientCredits => server
          | .ok c => c
        ⟨.completed audio, evs' ++ [.deductCall amt, .historyAppend], server', true⟩

/-- One full `generateSpeech` run, parameterized over the oracle responses in
`inp` and the server-side credit balance for the caller's identity: login
check, preprocessing, the empty-text and character-ceiling checks, the
client-side credit precheck against the snapshot `user.credits`, then the
synthesis phase. -/
def runGen (inp : RunInput) (server : Credits) : RunOutput :=
  match inp.user with
  | none => ⟨.needLogin, [], server, false⟩
  | some user =>
    match preprocess inp with
    | .error (out, evs) => ⟨out, evs, server, false⟩
    | .ok (txt, evs) =>
      if jsTrim txt = [] then ⟨.errTextEmpty, evs, server, false⟩
      else if txt.length > MAX_CHARS then ⟨.errTooLong, evs, server, false⟩
      else
        match user.credits with
        | .infinity => synthesize user txt evs inp server
        | .fin b =>
          if b < (txt.length : Int) then ⟨.errInsufficient, evs, server, false⟩
          else synthesize user txt evs inp server

/-- Whether an outcome is the successful completion. -/
def isCompleted : Outcome → Bool
  | .completed _ => true
  | _ => false

theorem preprocess_ok_evs (inp : RunInput) (t : List Char) (evs : List Ev)
    (h : preprocess inp = .ok (t, evs)) : evs = [] ∨ evs = [.transcribeCall] := by
  unfold preprocess at h
  split at h
  · left
    injection h with h1
    exact (congrArg Prod.snd h1).symm
  · split at h
    · simp_all
    · split at h
      · simp_all
      · split at h <;> simp_all

theorem preprocess_err_evs (inp : RunInput) (out : Outcome) (evs : List Ev)
    (h : preprocess inp = .error (out, evs)) : evs = [] ∨ evs = [.transcribeCall] := by
  unfold preprocess at h
  split at h
  · simp_all
  · split at h
    · left
      injection h with h1
      exact (congrArg Prod.snd h1).symm
    · split at h
      · right
        injection h with h1
        exact (congrArg Prod.snd h1).symm
      · split at h
        · right
          injection h with h1
          exact (congrArg Prod.snd h1).symm
        · simp_all

theorem resolvedText_some (inp : RunInput) (t : List Char)
    (h : resolvedText inp = some t) : ∃ evs, preprocess inp = .ok (t, evs) := by
  unfold resolvedText at h
  split at h <;> simp_all

theorem catchOutcome_ne_completed (e : JsError) (audio : List Nat) :
    catchOutcome e ≠ .completed audio := by
  unfold catchOutcome
  split
  · simp
  · split <;> simp

theorem catchOutcome_abortRaceError :
    catchOutcome abortRaceError
      = .errGeneric ("AbortError".toList) := by decide

theorem synthesize_abort (user : User) (txt : List Char) (evs : List Ev)
    (inp : RunInput) (server : Credits) (hab : abortFires inp.cancelPoint = true) :
    synthesize user txt evs inp server
      = ⟨catchOutcome abortRaceError, evs ++ [.synthesizeCall], server, false⟩ := by
  unfold synthesize
  rw [if_pos hab]

theorem synthesize_not_completed (user : User) (txt : List Char) (evs : List Ev)
    (inp : RunInput) (server : Credits)
    (hde : ∀ a : Int, Ev.deductCall a ∉ evs)
    (h : isCompleted (synthesize user txt evs inp server).outcome = false) :
    (synthesize user txt evs inp server).serverCredits = server
    ∧ (synthesize user txt evs inp server).historyAppended = false
    ∧ ∀ a : Int, Ev.deductCall a ∉ (synthesize user txt evs inp server).events := by
  obtain ⟨em, cr, pr⟩ := user
  obtain ⟨u0, m0, tx0, au0, tr0, sy0, cp0⟩ := inp
  by_cases hab : abortFires cp0
  · refine ⟨?_, ?_, ?_⟩ <;> simp_all [synthesize, List.mem_append]
  · cases sy0 with
    | throws e => refine ⟨?_, ?_, ?_⟩ <;> simp_all [synthesize, List.mem_append]
    | returns audio =>
      cases audio with
      | none => refine ⟨?_, ?_, ?_⟩ <;> simp_all [synthesize, List.mem_append]
      | some a => cases cr <;> simp_all [synthesize, isCompleted]

theorem preprocess_err_shape (inp : RunInput) (out : Outcome) (evs : List Ev)
    (h : preprocess inp = .error (out, evs)) :
    out ≠ .cancelled ∧ isCompleted out = false := by
  unfold preprocess at h
  split at h
  · simp_all
  · split at h
    · injection h with h1
      have := congrArg Prod.fst h1
      simp at this
      subst this
      exact ⟨by simp, rfl⟩
    · split at h
      · injection h with h1
        have := congrArg Prod.fst h1
        simp at this
        subst this
        exact ⟨by simp, rfl⟩
      · split at h
        · injection h with h1
          have := congrArg Prod.fst h1
          simp at this
          subst this
          exact ⟨by simp, rfl⟩
        · simp_all

theorem runGen_shape (inp : RunInput) (server : Credits) :
    (∃ out evs, runGen inp server = ⟨out, evs, server, false⟩
      ∧ out ≠ .cancelled ∧ isCompleted out = false
      ∧ Ev.synthesizeCall ∉ evs ∧ ∀ a : Int, Ev.deductCall a ∉ evs)
    ∨ (∃ user txt evs, inp.user = some user ∧ preprocess inp = .ok (txt, evs)
      ∧ runGen inp server = synthesize user txt evs inp server
      ∧ Ev.synthesizeCall ∉ evs ∧ ∀ a : Int, Ev.deductCall a ∉ evs) := by
  obtain ⟨u0, m0, tx0, au0, tr0, sy0, cp0⟩ := inp
  cases u0 with
  | none =>
    left
    exact ⟨.needLogin, [], by simp [runGen], by simp, rfl, by simp, by simp⟩
  | some user =>
    rcases hp : preprocess ⟨some user, m0, tx0, au0, tr0, sy0, cp0⟩ with ⟨out, evs⟩ | ⟨txt, evs⟩
    · have hevs := preprocess_err_evs _ out evs hp
      have hshape := preprocess_err_shape _ out evs hp
      have hsyn : Ev.synthesizeCall ∉ evs := by
        rcases hevs with h' | h' <;> simp [h']
      have hde : ∀ a : Int, Ev.deductCall a ∉ evs := by
        intro a
        rcases hevs with h' | h' <;> simp [h']
      left
      exact ⟨out, evs, by simp [runGen, hp], hshape.1, hshape.2, hsyn, hde⟩
    · have hevs := preprocess_ok_evs _ txt evs hp
      have hsyn : Ev.synthesizeCall ∉ evs := by
        rcases hevs with h' | h' <;> simp [h']
      have hde : ∀ a : Int, Ev.deductCall a ∉ evs := by
        intro a
        rcases hevs with h' | h' <;> simp [h']
      by_cases h1 : jsTrim txt = []
      · left
        exact ⟨.errTextEmpty, evs, by simp [runGen, hp, h1], by simp, rfl, hsyn, hde⟩
      · by_cases h2 : txt.length > MAX_CHARS
        · left
          exact ⟨.errTooLong, evs, by simp [runGen, hp, h1, h2], by simp, rfl, hsyn, hde⟩
        · obtain ⟨em, cr, pr⟩ := user
          cases cr with
          | infinity =>
            right
            refine ⟨⟨em, .infinity, pr⟩, txt, evs, rfl, rfl, ?_, hsyn, hde⟩
            simp [runGen, hp, h1, h2]
          | fin b =>
            by_cases h3 : b < (txt.length : Int)
            · left
              exact ⟨.errInsufficient, evs, by simp [runGen, hp, h1, h2, h3], by simp, rfl, hsyn, hde⟩
            · right
              refine ⟨⟨em, .fin b, pr⟩, txt, evs, rfl, rfl, ?_, hsyn, hde⟩
              simp [runGen, hp, h1, h2, h3]

/-- C7: no failed or cancelled generation run produces a credit deduction or
a history entry: whenever the run outcome is not the successful completion,
the server-side balance is unchanged, no HistoryItem is appended, and no
deduct request was issued. -/
theorem failed_or_cancelled_run_no_deduct_no_history (inp : RunInput) (server : Credits)
    (h : isCompleted (runGen inp server).outcome = false) :
    (runGen inp server).serverCredits = server
    ∧ (runGen inp server).historyAppended = false
    ∧ ∀ a : Int, Ev.deductCall a ∉ (runGen inp server).events := by
  rcases runGen_shape inp server with
    ⟨out, evs, hr, hnc, hncomp, hsyn, hde⟩ | ⟨user, txt, evs, hu, hp, hr, hsyn, hde⟩
  · rw [hr]
    exact ⟨rfl, rfl, hde⟩
  · rw [hr] at h ⊢
    exact synthesize_not_completed _ _ _ _ _ hde h

/-- C8: a convert (voice-changer) or dub run whose transcription/translation
call returns an empty or whitespace-only string fails with the
empty-transcription error, with the transcription call as the only external
call (no synthesis call), and with the server balance unchanged. -/
theorem empty_transcription_fails_before_synthesis (inp : RunInput) (server : Credits)
    (u : User) (au : List Nat) (s : List Char)
    (hu : inp.user = some u) (hm : inp.mode ≠ .tts) (ha : inp.uploadedAudio = some au)
    (ht : inp.transcribeResult = some s) (hs : jsTrim s = []) :
    runGen inp server = ⟨.errProcessAudio true, [.transcribeCall], server, false⟩ := by
  obtain ⟨u0, m0, tx0, au0, tr0, sy0, cp0⟩ := inp
  simp only at hu ha ht
  subst hu ha ht
  cases m0 with
  | tts => simp at hm
  | voiceChanger => simp [runGen, preprocess, hs]
  | dubbing => simp [runGen, preprocess, hs]

theorem synthesize_cancelPoint (user : User) (txt : List Char) (evs : List Ev)
    (u0 : Option User) (m0 : Mode) (tx0 : List Char) (au0 : Option (List Nat))
    (tr0 : Option (List Char)) (sy0 : SynthResult) (cp cp' : CancelPoint)
    (server : Credits) (h : abortFires cp = abortFires cp') :
    synthesize user txt evs ⟨u0, m0, tx0, au0, tr0, sy0, cp⟩ server
      = synthesize user txt evs ⟨u0, m0, tx0, au0, tr0, sy0, cp'⟩ server := by
  simp only [synthesize]
  rw [h]

theorem preprocess_cancelPoint (u0 : Option User) (m0 : Mode) (tx0 : List Char)
    (au0 : Option (List Nat)) (tr0 : Option (List Char)) (sy0 : SynthResult)
    (cp cp' : CancelPoint) :
    preprocess ⟨u0, m0, tx0, au0, tr0, sy0, cp⟩
      = preprocess ⟨u0, m0, tx0, au0, tr0, sy0, cp'⟩ := by
  cases m0 <;> rfl

theorem runGen_cancelPoint (inp : RunInput) (server : Credits)
    (cp cp' : CancelPoint) (h : abortFires cp = abortFires cp') :
    runGen { inp with cancelPoint := cp } server
      = runGen { inp with cancelPoint := cp' } server := by
  obtain ⟨u0, m0, tx0, au0, tr0, sy0, cp0⟩ := inp
  cases u0 with
  | none => rfl
  | some user =>
    have hpre := preprocess_cancelPoint (some user) m0 tx0 au0 tr0 sy0 cp cp'
    rcases hp : preprocess ⟨some user, m0, tx0, au0, tr0, sy0, cp⟩ with ⟨out, evs⟩ | ⟨txt, evs⟩
    · have hp' : preprocess ⟨some user, m0, tx0, au0, tr0, sy0, cp'⟩ = .error (out, evs) := by
        rw [← hpre]
        exact hp
      simp [runGen, hp, hp']
    · have hp' : preprocess ⟨some user, m0, tx0, au0, tr0, sy0, cp'⟩ = .ok (txt, evs) := by
        rw [← hpre]
        exact hp
      have hsy := synthesize_cancelPoint user txt evs (some user) m0 tx0 au0 tr0 sy0 cp cp' server h
      by_cases h1 : jsTrim txt = []
      · simp [runGen, hp, hp', h1]
      · by_cases h2 : txt.length > MAX_CHARS
        · simp [runGen, hp, hp', h1, h2]
        · obtain ⟨em, cr, pr⟩ := user
          cases cr with
          | infinity => simp only [runGen, hp, hp', h1, h2]; simp [h1, h2, hsy]
          | fin b =>
            by_cases h3 : b < (txt.length : Int)
            · simp [runGen, hp, hp', h1, h2, h3]
            · simp only [runGen, hp, hp', h1, h2]; simp [h1, h2, h3, hsy]

/-- C5 amended: a cancellation issued while the synthesis call is
outstanding terminates any run that reaches that call, but not in the silent
Cancelled state: the race rejects with a plain Error whose message is
AbortError, the catch's abort test does not match it (the error's name is
Error, and the case-sensitive includes finds no lowercase abort in the
message), so the run surfaces the generic error message AbortError — with no
deduction and no history entry; and a cancellation issued while the
transcription/translation call is outstanding is a complete no-op: the run
behaves exactly as if no cancel had been issued, because the abort
controller is created only immediately before the synthesis call. -/
theorem cancel_during_synthesis_surfaces_abort_error (inp : RunInput) (server : Credits) :
    (inp.cancelPoint = .duringSynthesis →
      Ev.synthesizeCall ∈ (runGen inp server).events →
      (runGen inp server).outcome = .errGeneric ("AbortError".toList)
      ∧ (runGen inp server).serverCredits = server
      ∧ (runGen inp server).historyAppended = false
      ∧ ∀ a : Int, Ev.deductCall a ∉ (runGen inp server).events)
    ∧ runGen { inp with cancelPoint := .duringPreprocessing } server
      = runGen { inp with cancelPoint := .noCancel } server := by
  constructor
  · rcases runGen_shape inp server with
      ⟨out, evs, hr, hnc, hncomp, hsyn, hde⟩ | ⟨user, txt, evs, hu, hp, hr, hsyn, hde⟩
    · rw [hr]
      intro _ hmem
      exact absurd hmem hsyn
    · intro hcp _
      have hab : abortFires inp.cancelPoint = true := by rw [hcp]; rfl
      rw [hr, synthesize_abort user txt evs inp server hab, catchOutcome_abortRaceError]
      refine ⟨rfl, rfl, rfl, ?_⟩
      intro a ha
      rw [List.mem_append] at ha
      rcases ha with ha | ha
      · exact hde a ha
      · simp at ha
  · exact runGen_cancelPoint inp server .duringPreprocessing .noCancel rfl

/-- C4 amended: whenever the resolved synthesis text is non-blank and
exceeds the character ceiling, the run fails with the text-too-long error
before the synthesis call, with no deduction and no history entry — but in
convert/dub mode the transcription/translation call has already been made to
produce the resolved text (see the counterexample), so the failure is not
before every external capability. -/
theorem too_long_resolved_text_fails_before_synthesis (inp : RunInput) (server : Credits)
    (u : User) (t : List Char) (hu : inp.user = some u) (ht : resolvedText inp = some t)
    (hne : jsTrim t ≠ []) (hlen : t.length > MAX_CHARS) :
    (runGen inp server).outcome = .errTooLong
    ∧ Ev.synthesizeCall ∉ (runGen inp server).events
    ∧ (runGen inp server).serverCredits = server
    ∧ (runGen inp server).historyAppended = false
    ∧ ∀ a : Int, Ev.deductCall a ∉ (runGen inp server).events := by
  obtain ⟨evs, hp⟩ := resolvedText_some inp t ht
  have hevs := preprocess_ok_evs _ t evs hp
  have hsyn : Ev.synthesizeCall ∉ evs := by
    rcases hevs with h' | h' <;> simp [h']
  have hde : ∀ a : Int, Ev.deductCall a ∉ evs := by
    intro a
    rcases hevs with h' | h' <;> simp [h']
  have hr : runGen inp server = ⟨.errTooLong, evs, server, false⟩ := by
    obtain ⟨u0, m0, tx0, au0, tr0, sy0, cp0⟩ := inp
    simp only at hu
    subst hu
    simp [runGen, hp, hne, hlen]
  rw [hr]
  exact ⟨rfl, hsyn, rfl, rfl, hde⟩

theorem synthesize_completed_fin (user : User) (txt : List Char) (evs : List Ev)
    (inp : RunInput) (server : Credits) (cb : Int) (audio : List Nat)
    (hcr : user.credits = .fin cb)
    (hout : (synthesize user txt evs inp server).outcome = .completed audio) :
    synthesize user txt evs inp server
      = ⟨.completed audio, (evs ++ [.synthesizeCall]) ++ [.deductCall (txt.length : Int), .historyAppend],
         (match checkAndDeduct server (txt.length : Int) with
          | .insufficientCredits => server
          | .ok c => c), true⟩ := by
  obtain ⟨em, cr, pr⟩ := user
  simp only at hcr
  subst hcr
  obtain ⟨u0, m0, tx0, au0, tr0, sy0, cp0⟩ := inp
  by_cases hab : abortFires cp0
  · simp [synthesize, hab] at hout
    exact absurd hout (catchOutcome_ne_completed _ _)
  · cases sy0 with
    | throws e =>
      simp [synthesize, hab] at hout
      exact absurd hout (catchOutcome_ne_completed _ _)
    | returns a =>
      cases a with
      | none =>
        simp [synthesize, hab] at hout
        exact absurd hout (catchOutcome_ne_completed _ _)
      | some a =>
        have haud : a = audio := by
          simp [synthesize, hab] at hout
          exact hout
        subst haud
        simp [synthesize, hab]

/-- C3: a run that completes synthesis while the server-side balance is
smaller than the resolved-text length still delivers the audio result and
appends the history entry; the deduct request is issued but fails with the
insufficient-credits error, leaving the server balance unchanged. -/
theorem completed_run_failing_deduction_keeps_balance_and_result (inp : RunInput)
    (u : User) (cb b : Int) (t : List Char) (audio : List Nat)
    (hu : inp.user = some u) (hcb : u.credits = .fin cb)
    (ht : resolvedText inp = some t)
    (hout : (runGen inp (.fin b)).outcome = .completed audio)
    (hins : b < (t.length : Int)) :
    (runGen inp (.fin b)).serverCredits = .fin b
    ∧ (runGen inp (.fin b)).historyAppended = true
    ∧ Ev.deductCall (t.length : Int) ∈ (runGen inp (.fin b)).events
    ∧ (runGen inp (.fin b)).outcome = .completed audio := by
  rcases runGen_shape inp (.fin b) with
    ⟨out, evs, hr, hnc, hncomp, hsyn, hde⟩ | ⟨user, txt, evs, hu', hp, hr, hsyn, hde⟩
  · rw [hr] at hout
    simp only at hout
    subst hout
    simp [isCompleted] at hncomp
  · have huu : u = user := by
      rw [hu] at hu'
      injection hu'
    have htt : txt = t := by
      unfold resolvedText at ht
      rw [hp] at ht
      simpa using ht
    subst huu
    subst htt
    rw [hr] at hout ⊢
    have heq := synthesize_completed_fin u txt evs inp (.fin b) cb audio hcb hout
    rw [heq]
    have hcd : checkAndDeduct (.fin b) (txt.length : Int) = .insufficientCredits := by
      simp [checkAndDeduct, hins]
    refine ⟨?_, rfl, ?_, rfl⟩
    · simp [hcd]
    · simp

theorem jsTrim_replicate_a (n : Nat) :
    jsTrim (List.replicate n 'a') = List.replicate n 'a' := by
  have hdrop : List.dropWhile isJsWs (List.replicate n 'a') = List.replicate n 'a' := by
    cases n with
    | zero => simp
    | succ m => simp [List.replicate_succ, List.dropWhile_cons, isJsWs]
  have hdrop' : List.dropWhile isJsWs (List.replicate n 'a').reverse
      = (List.replicate n 'a').reverse := by
    rw [List.reverse_replicate]
    exact hdrop
  rw [jsTrim, hdrop, hdrop', List.reverse_reverse]

theorem replicate_a_ne_nil (n : Nat) (hn : 0 < n) :
    (List.replicate n 'a' : List Char) ≠ [] := by
  intro h
  have h3 := congrArg List.length h
  rw [List.length_replicate, List.length_nil] at h3
  omega

theorem runGen_dub_replicate_too_long (user : User) (au : List Nat) (n : Nat)
    (hn : n > MAX_CHARS) (synth : SynthResult) (cp : CancelPoint) (server : Credits) :
    runGen { user := some user, mode := .dubbing, text := [], uploadedAudio := some au,
             transcribeResult := some (List.replicate n 'a'), synthResult := synth,
             cancelPoint := cp } server
      = ⟨.errTooLong, [.transcribeCall], server, false⟩ := by
  have h1 := jsTrim_replicate_a n
  have h2 := replicate_a_ne_nil n (by unfold MAX_CHARS at hn; omega)
  simp only [runGen, preprocess, h1, if_neg h2, List.length_replicate]
  rw [if_pos hn]

/-- Client-side user snapshot used by the concrete pipeline runs below. -/
def pUser : User := { email := "a@x.com", credits := .fin 20000, isPremium := false }

/-- A dub run whose translation resolves to 20001 characters. -/
def c4Input : RunInput :=
  { user := some pUser
  , mode := .dubbing
  , text := []
  , uploadedAudio := some [1]
  , transcribeResult := some (List.replicate 20001 'a')
  , synthResult := .returns (some [0])
  , cancelPoint := .noCancel }

/-- C4 counterexample: a dub run whose resolved text exceeds the ceiling does
fail with the text-too-long error, but the translation call (an external
model capability) has already been invoked at that point, contradicting the
claim that the failure occurs before any external capability is invoked. -/
theorem too_long_checked_after_transcription_cex :
    (runGen c4Input (.fin 20000)).outcome = .errTooLong
    ∧ Ev.transcribeCall ∈ (runGen c4Input (.fin 20000)).events := by
  have hr : runGen c4Input (.fin 20000)
      = ⟨.errTooLong, [.transcribeCall], .fin 20000, false⟩ :=
    runGen_dub_replicate_too_long pUser [1] 20001 (by decide) (.returns (some [0]))
      .noCancel (.fin 20000)
  rw [hr]
  exact ⟨rfl, by simp⟩

/-- A direct (tts) run whose text has 20001 characters. -/
def c4TtsInput : RunInput :=
  { user := some pUser
  , mode := .tts
  , text := List.replicate 20001 'a'
  , uploadedAudio := none
  , transcribeResult := none
  , synthResult := .returns (some [0])
  , cancelPoint := .noCancel }

theorem too_long_resolved_text_fails_before_synthesis_witness :
    (c4TtsInput.user = some pUser
      ∧ resolvedText c4TtsInput = some (List.replicate 20001 'a')
      ∧ jsTrim (List.replicate 20001 'a') ≠ []
      ∧ (List.replicate 20001 'a' : List Char).length > MAX_CHARS)
    ∧ ((runGen c4TtsInput (.fin 20000)).outcome = .errTooLong
      ∧ Ev.synthesizeCall ∉ (runGen c4TtsInput (.fin 20000)).events
      ∧ (runGen c4TtsInput (.fin 20000)).serverCredits = .fin 20000
      ∧ (runGen c4TtsInput (.fin 20000)).historyAppended = false
      ∧ ∀ a : Int, Ev.deductCall a ∉ (runGen c4TtsInput (.fin 20000)).events) := by
  have hne : jsTrim (List.replicate 20001 'a') ≠ [] := by
    rw [jsTrim_replicate_a]
    exact replicate_a_ne_nil 20001 (by decide)
  have hlen : (List.replicate 20001 'a' : List Char).length > MAX_CHARS := by
    rw [List.length_replicate]
    decide
  exact ⟨⟨rfl, rfl, hne, hlen⟩,
    too_long_resolved_text_fails_before_synthesis c4TtsInput (.fin 20000) pUser _ rfl rfl hne hlen⟩

/-- A dub run cancelled while the translation call is outstanding. -/
def c5PreInput : RunInput :=
  { user := some pUser
  , mode := .dubbing
  , text := []
  , uploadedAudio := some [1]
  , transcribeResult := some ['h', 'i']
  , synthResult := .returns (some [0])
  , cancelPoint := .duringPreprocessing }

/-- A direct run cancelled while the synthesis call is outstanding. -/
def c5SynInput : RunInput :=
  { user := some pUser
  , mode := .tts
  , text := ['h', 'i']
  , uploadedAudio := none
  , transcribeResult := none
  , synthResult := .returns (some [0])
  , cancelPoint := .duringSynthesis }

/-- C5 counterexample, both halves of the claim: a cancellation issued while
the translation call (the Preprocessing step) is outstanding does not
transition the run to Cancelled — the run proceeds and completes, because
the abort controller does not exist yet when handleCancel runs; and even a
cancellation issued while the synthesis call is outstanding does not reach
the silent Cancelled terminal — the catch misclassifies the race's abort
rejection and surfaces the generic error message AbortError instead. -/
theorem cancellation_never_reaches_cancelled_cex :
    (c5PreInput.cancelPoint = .duringPreprocessing
      ∧ (runGen c5PreInput (.fin 20000)).outcome = .completed [0]
      ∧ (runGen c5PreInput (.fin 20000)).outcome ≠ .cancelled)
    ∧ (c5SynInput.cancelPoint = .duringSynthesis
      ∧ (runGen c5SynInput (.fin 20000)).outcome = .errGeneric ("AbortError".toList)
      ∧ (runGen c5SynInput (.fin 20000)).outcome ≠ .cancelled) := by
  exact ⟨⟨rfl, by decide, by decide⟩, ⟨rfl, by decide, by decide⟩⟩

theorem cancel_during_synthesis_surfaces_abort_error_witness :
    (c5SynInput.cancelPoint = .duringSynthesis
      ∧ Ev.synthesizeCall ∈ (runGen c5SynInput (.fin 20000)).events)
    ∧ ((runGen c5SynInput (.fin 20000)).outcome = .errGeneric ("AbortError".toList)
      ∧ (runGen c5SynInput (.fin 20000)).serverCredits = .fin 20000
      ∧ (runGen c5SynInput (.fin 20000)).historyAppended = false
      ∧ ∀ a : Int, Ev.deductCall a ∉ (runGen c5SynInput (.fin 20000)).events)
    ∧ runGen { c5SynInput with cancelPoint := .duringPreprocessing } (.fin 20000)
      = runGen { c5SynInput with cancelPoint := .noCancel } (.fin 20000) :=
  ⟨⟨rfl, by decide⟩,
   (cancel_during_synthesis_surfaces_abort_error c5SynInput (.fin 20000)).1 rfl (by decide),
   (cancel_during_synthesis_surfaces_abort_error c5SynInput (.fin 20000)).2⟩

/-- A direct run whose synthesis call rejects with a quota-class error. -/
def c7Input : RunInput :=
  { user := some pUser
  , mode := .tts
  , text := ['h', 'i']
  , uploadedAudio := none
  , transcribeResult := none
  , synthResult := .throws { name := "Error".toList, message := "got status: 429 Too Many Requests".toList }
  , cancelPoint := .noCancel }

theorem failed_or_cancelled_run_no_deduct_no_history_witness :
    isCompleted (runGen c7Input (.fin 20000)).outcome = false
    ∧ ((runGen c7Input (.fin 20000)).serverCredits = .fin 20000
      ∧ (runGen c7Input (.fin 20000)).historyAppended = false
      ∧ ∀ a : Int, Ev.deductCall a ∉ (runGen c7Input (.fin 20000)).events) :=
  ⟨by decide, failed_or_cancelled_run_no_deduct_no_history c7Input (.fin 20000) (by decide)⟩

/-- A voice-changer run whose transcription call returns only whitespace. -/
def c8Input : RunInput :=
  { user := some pUser
  , mode := .voiceChanger
  , text := []
  , uploadedAudio := some [1]
  , transcribeResult := some [' ', '\t']
  , synthResult := .returns (some [0])
  , cancelPoint := .noCancel }

theorem empty_transcription_fails_before_synthesis_witness :
    (c8Input.user = some pUser
      ∧ c8Input.mode ≠ .tts
      ∧ c8Input.uploadedAudio = some [1]
      ∧ c8Input.transcribeResult = some [' ', '\t']
      ∧ jsTrim [' ', '\t'] = [])
    ∧ runGen c8Input (.fin 20000)
      = ⟨.errProcessAudio true, [.transcribeCall], .fin 20000, false⟩ :=
  ⟨⟨rfl, by decide, rfl, rfl, by decide⟩,
   empty_transcription_fails_before_synthesis c8Input (.fin 20000) pUser [1] [' ', '\t']
     rfl (by decide) rfl rfl (by decide)⟩

/-- Snapshot user for the C3 witness: client-side balance 5. -/
def c3User : User := { email := "a@x.com", credits := .fin 5, isPremium := false }

/-- A direct run of a 2-character text against a server balance of 1. -/
def c3Input : RunInput :=
  { user := some c3User
  , mode := .tts
  , text := ['h', 'i']
  , uploadedAudio := none
  , transcribeResult := none
  , synthResult := .returns (some [7])
  , cancelPoint := .noCancel }

theorem completed_run_failing_deduction_keeps_balance_and_result_witness :
    ((runGen c3Input (.fin 1)).outcome = .completed [7]
      ∧ (1 : Int) < ((['h', 'i'] : List Char).length : Int))
    ∧ ((runGen c3Input (.fin 1)).serverCredits = .fin 1
      ∧ (runGen c3Input (.fin 1)).historyAppended = true
      ∧ Ev.deductCall ((['h', 'i'] : List Char).length : Int) ∈ (runGen c3Input (.fin 1)).events
      ∧ (runGen c3Input (.fin 1)).outcome = .completed [7]) :=
  ⟨⟨by decide, by decide⟩,
   completed_run_failing_deduction_keeps_balance_and_result c3Input c3User 5 1 ['h', 'i'] [7]
     rfl rfl rfl (by decide) (by decide)⟩
